import Mathlib

/-!
# Verification of the score-addon-ltc real-time timecode engines

Shallow embedding of the three engines of the `score-addon-ltc` repository:

* `LTCInput` (decode engine, `src/unnamed/part_000`): decodes LTC timecode from
  an audio stream via the external libltc codec, auto-detects the frame rate,
  applies a 500 ms validity timeout and converts the decoded time to a
  selectable output unit.
* `LTCGenerator` (encode engine, `src/LTC/LTC.cpp`): drives the external libltc
  encoder byte-by-byte through an elastic backpressure buffer.
* `XWaxDVS` (DVS quality engine, `src/LTC/XWax.hpp`): feeds stereo audio to the
  external xwax correlator and derives a windowed signal-quality score.

The external codec/correlator calls are black boxes: their per-tick results
(decoded frames, pitch, position) are inputs of the embedded tick functions.
C++ `double` values are embedded as `ℚ`, machine integers as `ℤ`/`ℕ` with
explicit wrap-around where the source converts to a narrower type.
-/

namespace LTCAddon

/-! ## LTCInput: data model (from `src/unnamed/part_000`) -/

/-- `LTCInput::FrameRate` (the user-selected rate standard). -/
inductive FrameRate
  | FPS_24
  | FPS_25
  | FPS_2997
  | FPS_30
  | Auto
deriving DecidableEq, Repr

/-- `LTCInput::OutputFormat`. -/
inductive OutputFormat
  | Seconds
  | Milliseconds
  | Microseconds
  | Nanoseconds
  | Flicks
deriving DecidableEq, Repr

/-- `LTC_TV_STANDARD` (from libltc's public enum, used by the sources). -/
inductive LTC_TV_STANDARD
  | LTC_TV_525_60
  | LTC_TV_625_50
  | LTC_TV_1125_60
  | LTC_TV_FILM_24
deriving DecidableEq, Repr

open FrameRate OutputFormat LTC_TV_STANDARD

/-- The fields of a decoded `LTCFrame` that the engine reads: BCD time digits,
the drop-frame bit, and the `LTCFrameExt` reverse flag and volume estimate. -/
structure LTCFrame where
  hours_tens : ℕ
  hours_units : ℕ
  mins_tens : ℕ
  mins_units : ℕ
  secs_tens : ℕ
  secs_units : ℕ
  frame_tens : ℕ
  frame_units : ℕ
  dfbit : Bool
  reverse : Bool
  volume : ℚ
deriving DecidableEq, Repr

/-- The decoded SMPTE fields the engine uses (`SMPTETimecode`). -/
structure SMPTE where
  hours : ℕ
  mins : ℕ
  secs : ℕ
  frame : ℕ
deriving DecidableEq, Repr

/-- Modelled from the spec: `ltc_frame_to_time` lives in the vendored libltc
(`3rdparty/libltc`, not under `src/`).  Per the spec the decoded frame is
"decompose[d] to hours/minutes/seconds/frame-number", i.e. the BCD digit pairs
are combined positionally. -/
def ltc_frame_to_time (f : LTCFrame) : SMPTE :=
  { hours := f.hours_tens * 10 + f.hours_units
    mins := f.mins_tens * 10 + f.mins_units
    secs := f.secs_tens * 10 + f.secs_units
    frame := f.frame_tens * 10 + f.frame_units }

/-- The control inputs of `LTCInput` (`inputs` struct). -/
structure LTCInputs where
  offset : ℤ
  format : OutputFormat
  framerate : FrameRate
  queue_size : ℤ
deriving DecidableEq, Repr

/-- `LTCInput::get_frame_rate_from_standard`.  The C++ double literal `29.97`
is embedded as the rational `2997/100`. -/
def get_frame_rate_from_standard (standard : LTC_TV_STANDARD) (drop_frame : Bool) : ℚ :=
  match standard with
  | LTC_TV_525_60 => if drop_frame then 2997/100 else 30
  | LTC_TV_1125_60 => if drop_frame then 2997/100 else 30
  | LTC_TV_625_50 => 25
  | LTC_TV_FILM_24 => 24

/-- `LTCInput::detect_standard`. -/
def detect_standard (inputs : LTCInputs) (frame : LTCFrame) : LTC_TV_STANDARD :=
  if inputs.framerate ≠ FrameRate.Auto then
    match inputs.framerate with
    | FPS_24 => LTC_TV_FILM_24
    | FPS_25 => LTC_TV_625_50
    | _ => LTC_TV_525_60
  else if frame.dfbit then
    LTC_TV_525_60
  else
    let max_frame := frame.frame_tens * 10 + frame.frame_units
    if max_frame ≥ 25 then LTC_TV_525_60
    else if max_frame ≥ 24 then LTC_TV_625_50
    else LTC_TV_FILM_24

/-- `LTCInput::get_configured_fps`. -/
def get_configured_fps (inputs : LTCInputs) : ℚ :=
  match inputs.framerate with
  | FPS_24 => 24
  | FPS_25 => 25
  | FPS_2997 => 2997/100
  | FPS_30 => 30
  | Auto => 30

/-- `LTCInput::to_seconds`. -/
def to_seconds (inputs : LTCInputs) (tc : SMPTE) (fps : ℚ) : ℚ :=
  (tc.hours * 3600 + tc.mins * 60 + tc.secs + (tc.frame : ℚ) / fps : ℚ) + inputs.offset

/-- `LTCInput::convert_output`. -/
def convert_output (inputs : LTCInputs) (seconds : ℚ) : ℚ :=
  match inputs.format with
  | Seconds => seconds
  | Milliseconds => seconds * 1000
  | Microseconds => seconds * 1000000
  | Nanoseconds => seconds * 1000000000
  | Flicks => seconds * 705600000

/-- The output ports of `LTCInput` with their member-initializer defaults. -/
structure LTCOutputs where
  timecode : ℚ
  valid : Bool
  frame_rate : ℚ
  drop_frame : Bool
  reverse : Bool
  volume : ℚ
deriving DecidableEq, Repr

/-- Default-constructed `LTCInput` outputs (`{0.0}`, `{false}`, `{30.0}`,
`{false}`, `{false}`, `{-96.0}`). -/
def LTCOutputs.init : LTCOutputs :=
  { timecode := 0, valid := false, frame_rate := 30, drop_frame := false
    reverse := false, volume := -96 }

/-- The mutable state of `LTCInput`: decoder handle presence, the monotonic
sample-position counter `m_sample_position`, the timestamp of the last decoded
frame `m_last_valid_time` (in milliseconds of the steady clock), the retained
last frame, the bound setup rate and the outputs. -/
structure LTCState where
  has_decoder : Bool
  rate : ℚ
  sample_position : ℕ
  last_valid_time : ℕ
  last_frame : LTCFrame
  outputs : LTCOutputs
deriving DecidableEq, Repr

/-- Zero-initialized frame (`LTCFrameExt m_last_frame{}`). -/
def LTCFrame.zero : LTCFrame := ⟨0, 0, 0, 0, 0, 0, 0, 0, false, false, 0⟩

/-- Default-constructed `LTCInput` state: no decoder, zero setup. -/
def LTCState.init : LTCState :=
  { has_decoder := false, rate := 0, sample_position := 0, last_valid_time := 0
    last_frame := LTCFrame.zero, outputs := LTCOutputs.init }

/-- `LTCInput::reinit_decoder`, invoked by `prepare` and by a queue-size
change: drop the decoder; if the setup rate is ≤ 1 stay uninitialized,
otherwise recreate the decoder, zero the sample-position counter and set the
last-valid time to now. -/
def reinit_decoder (s : LTCState) (now : ℕ) : LTCState :=
  if s.rate ≤ 1 then { s with has_decoder := false }
  else { s with has_decoder := true, sample_position := 0, last_valid_time := now }

/-- `LTCInput::prepare`: store the setup, then `reinit_decoder`. -/
def ltc_prepare (s : LTCState) (rate : ℚ) (now : ℕ) : LTCState :=
  reinit_decoder { s with rate := rate } now

/-- `LTCInput::check_timeout`: force `valid := false` once more than 500 ms
have elapsed since the last decoded frame.  (`ℕ` subtraction truncates;
the steady clock never runs backwards, matching the source.) -/
def check_timeout (s : LTCState) (now : ℕ) : LTCState :=
  if now - s.last_valid_time > 500 then
    { s with outputs := { s.outputs with valid := false } }
  else s

/-- One tick of `LTCInput`: the audio-frame count of the tick descriptor, the
frames drained from the external codec's queue during the tick (in decode
order; the black-box collaborator's result), and the steady-clock time in
milliseconds. -/
structure LTCTick where
  frames : ℤ
  decoded : List LTCFrame
  now : ℕ
deriving DecidableEq, Repr

/-- `LTCInput::operator()`: early-out without a decoder or on a non-positive
frame count; otherwise feed the samples (advancing the sample-position
counter), drain the codec queue keeping the most recent frame, publish the
decoded time if a frame arrived, and finally run the timeout check. -/
def ltc_tick (inp : LTCInputs) (s : LTCState) (t : LTCTick) : LTCState :=
  if ¬s.has_decoder then s
  else if t.frames ≤ 0 then s
  else
    let s := { s with sample_position := s.sample_position + t.frames.toNat }
    match t.decoded.getLast? with
    | none => check_timeout s t.now
    | some f =>
      let s := { s with last_frame := f, last_valid_time := t.now }
      let tc := ltc_frame_to_time f
      let standard := detect_standard inp f
      let is_drop_frame := f.dfbit
      let fps0 := get_frame_rate_from_standard standard is_drop_frame
      let fps := if inp.framerate ≠ FrameRate.Auto then get_configured_fps inp else fps0
      let seconds := to_seconds inp tc fps
      let s :=
        { s with
          outputs :=
            { timecode := convert_output inp seconds
              valid := true
              frame_rate := fps
              drop_frame := is_drop_frame
              reverse := f.reverse
              volume := f.volume } }
      check_timeout s t.now

/-- A run of the decode engine over a sequence of ticks. -/
def ltc_run (inp : LTCInputs) (s : LTCState) (ts : List LTCTick) : LTCState :=
  ts.foldl (ltc_tick inp) s

/-! ## LTCGenerator: encode engine (from `src/LTC/LTC.cpp`) -/

/-- Truncation of a rational to an integer, toward zero: the semantics of the
C++ cast `int64_t(double)`. -/
def truncToInt (x : ℚ) : ℤ :=
  Int.tdiv x.num (x.den : ℤ)

/-- Conversion of a C++ integer to `uint8_t`: reduction modulo 256 (the result
of `%` on `ℤ` with a positive modulus is the mathematical residue). -/
def toUInt8 (x : ℤ) : ℤ :=
  x % 256

/-- The SMPTE hour/minute/second/frame fields that `LTCGenerator::update`
computes from the current transport position (in flicks) and the configured
offset (in seconds), and hands to `ltc_encoder_set_timecode`:
seconds = flicks/705,600,000 plus offset, truncated to `int64_t`, then split by
truncating `std::div` into days (discarded), hours, minutes and seconds, each
narrowed through a `uint8_t` cast; the frame field is the literal 0. -/
def generator_initial_smpte (current_flicks : ℤ) (offset_in : ℤ) : ℤ × ℤ × ℤ × ℤ :=
  let cur_seconds : ℚ := (current_flicks : ℚ) / 705600000
  let offset0 : ℤ := truncToInt (cur_seconds + (offset_in : ℚ))
  let days := Int.tdiv offset0 86400
  let o1 := offset0 - days * 86400
  let hours := Int.tdiv o1 3600
  let o2 := o1 - hours * 3600
  let minutes := Int.tdiv o2 60
  let o3 := o2 - minutes * 60
  (toUInt8 hours, toUInt8 minutes, toUInt8 o3, 0)

/-- The seconds-of-day decomposition the spec describes for the encoder's
initial SMPTE time: total seconds with any whole-day component discarded,
split into hours, minutes and seconds of the day.  (Stated from the spec's
words, to be compared with `generator_initial_smpte`.) -/
def spec_initial_smpte (total_seconds : ℤ) : ℤ × ℤ × ℤ × ℤ :=
  let sod := total_seconds % 86400
  (sod / 3600, sod % 3600 / 60, sod % 60, 0)

/-- The mutable state of `LTCGenerator` that the per-tick loop touches:
`m_current_byte` (the write-byte index), the elastic backpressure buffer
`m_buffer` of pending 8-bit bit-samples, the number of
`ltc_encoder_inc_timecode` calls issued to the codec (the advance count of the
internal timecode counter), and an encoded-byte count instrumenting the number
of `ltc_encoder_encode_byte` calls. -/
structure GenState where
  current_byte : ℕ
  buffer : List ℕ
  inc_count : ℕ
  bytes_encoded : ℕ
deriving DecidableEq, Repr

/-- `LTCGenerator` state after `prepare`/`update`: byte index 0 (member
initializer), empty backpressure buffer, no timecode advances yet. -/
def GenState.init : GenState :=
  { current_byte := 0, buffer := [], inc_count := 0, bytes_encoded := 0 }

/-- From the source: the third argument of `ltc_encoder_encode_byte` is
`120. / tk.tempo`. -/
def encode_speed_arg (tempo : ℚ) : ℚ :=
  120 / tempo

/-- Modelled from the spec: the bit-level encoder (vendored libltc, under
`3rdparty/libltc`, not under `src/`) treats its speed argument as a
playback-speed ratio, so the per-bit sample duration of an encoded byte is the
nominal duration divided by the speed argument. -/
def bit_duration_scale (tempo : ℚ) : ℚ :=
  (encode_speed_arg tempo)⁻¹

/-- The body of the `while(m_buffer.empty())` loop of
`LTCGenerator::operator()`: encode one byte of the current 10-byte LTC frame
through the external codec (a black box, represented by `gen`, mapping the
byte index and the speed argument to the produced bit-samples), advance the
byte index — invoking `ltc_encoder_inc_timecode` and wrapping to 0 after the
10th byte — and append the codec's output to the backpressure buffer. -/
def encode_one_byte (gen : ℕ → ℚ → List ℕ) (tempo : ℚ) (s : GenState) : GenState :=
  let samples := gen s.current_byte (encode_speed_arg tempo)
  let b := s.current_byte + 1
  if b = 10 then
    { current_byte := 0, inc_count := s.inc_count + 1
      bytes_encoded := s.bytes_encoded + 1, buffer := s.buffer ++ samples }
  else
    { current_byte := b, inc_count := s.inc_count
      bytes_encoded := s.bytes_encoded + 1, buffer := s.buffer ++ samples }

/-- Mapping of a popped bit-sample from its native 0..254 range to audio range:
`(data / 127.f) - 1.f`. -/
def sample_to_audio (data : ℕ) : ℚ :=
  (data : ℚ) / 127 - 1

/-- One output frame of `LTCGenerator::operator()`: refill the backpressure
buffer when it is empty, then pop one bit-sample.  The LTC codec produces at
least one sample per encoded byte (a bit lasts many audio samples), so the
source's `while(m_buffer.empty())` loop body runs at most once per output
frame; this step mirrors that single refill. -/
def gen_frame_step (gen : ℕ → ℚ → List ℕ) (tempo : ℚ) (s : GenState) : GenState :=
  let s1 := if s.buffer.isEmpty then encode_one_byte gen tempo s else s
  { s1 with buffer := s1.buffer.tail }

/-- One tick of `LTCGenerator::operator()`: `tk.frames` output frames at the
tick's tempo. -/
def gen_tick (gen : ℕ → ℚ → List ℕ) (s : GenState) (frames : ℕ) (tempo : ℚ) : GenState :=
  (gen_frame_step gen tempo)^[frames] s

/-- A run of the encode engine over a sequence of (frame count, tempo) ticks. -/
def gen_run (gen : ℕ → ℚ → List ℕ) (s : GenState) (ts : List (ℕ × ℚ)) : GenState :=
  ts.foldl (fun s t => gen_tick gen s t.1 t.2) s

/-! ## XWaxDVS: DVS quality engine (from `src/LTC/XWax.hpp`) -/

/-- `XWaxDVS`'s parameter group whose change forces reinitialization: vinyl
type, RPM selection and pitch filter, as their integer codes. -/
structure DVSParams where
  vinyl_type : ℤ
  speed : ℤ
  pitch_filter : ℤ
deriving DecidableEq, Repr

/-- The output ports of `XWaxDVS`. -/
structure DVSOutputs where
  speed : ℚ
  tempo : ℚ
  position : ℚ
  timecode : ℤ
  quality : ℚ
  valid : Bool
deriving DecidableEq, Repr

/-- Default-constructed `XWaxDVS` outputs (value-initialized ports). -/
def DVSOutputs.init : DVSOutputs :=
  { speed := 0, tempo := 0, position := 0, timecode := 0, quality := 0, valid := false }

/-- The zeroed/invalid outputs both early-outs of `XWaxDVS::operator()`
produce. -/
def DVSOutputs.invalid : DVSOutputs :=
  { speed := 0, tempo := 0, position := 0, timecode := -1, quality := 0, valid := false }

/-- `QUALITY_RING_SIZE`. -/
def QUALITY_RING_SIZE : ℕ := 32

/-- The mutable state of `XWaxDVS`: the bound setup rate, the initialization
flag, the last-seen parameter codes (`m_last_vinyl_type` …), the quality ring
buffer with its write index and fill count, the last-position/last-pitch
trackers, and the outputs. -/
structure DVSState where
  rate : ℤ
  initialized : Bool
  last_vinyl_type : ℤ
  last_speed : ℤ
  last_pitch_filter : ℤ
  quality_ring : List ℤ
  quality_ring_index : ℕ
  quality_ring_filled : ℕ
  quality_last_position : ℤ
  quality_last_pitch : ℚ
  outputs : DVSOutputs
deriving DecidableEq, Repr

/-- Default-constructed `XWaxDVS` (member initializers): rate 0, not
initialized, last parameters −1, zeroed ring, trackers −1 / 0.0. -/
def DVSState.init : DVSState :=
  { rate := 0, initialized := false
    last_vinyl_type := -1, last_speed := -1, last_pitch_filter := -1
    quality_ring := List.replicate QUALITY_RING_SIZE 0
    quality_ring_index := 0, quality_ring_filled := 0
    quality_last_position := -1, quality_last_pitch := 0
    outputs := DVSOutputs.init }

/-- `XWaxDVS::prepare`: store the setup and force reinitialization on the next
process call by invalidating the last-seen parameters. -/
def dvs_prepare (s : DVSState) (rate : ℤ) : DVSState :=
  { s with rate := rate, last_vinyl_type := -1, last_speed := -1, last_pitch_filter := -1 }

/-- `XWaxDVS::init_timecoder`: clear the timecoder; give up (leaving the engine
uninitialized) when the setup rate is not positive; otherwise rebuild the
correlator and reset the quality ring buffer and the last-position/last-pitch
trackers.  The timecode-definition lookup is a black-box collaborator; the
twelve vinyl formats of the table all resolve in the shipped xwax, so the
lookup (with its `serato_2a` fallback) is modelled as succeeding. -/
def init_timecoder (s : DVSState) : DVSState :=
  if s.rate ≤ 0 then { s with initialized := false }
  else
    { s with initialized := true
             quality_ring := List.replicate QUALITY_RING_SIZE 0
             quality_ring_index := 0
             quality_ring_filled := 0
             quality_last_position := -1
             quality_last_pitch := 0 }

/-- The position-stability heuristic of `XWaxDVS::operator()`: 0 without a
correlator lock, 100 when there is no prior position or the position moved by
at least 5 ms since the previous tick, 50 otherwise. -/
def position_quality (last_position : ℤ) (position_ms : ℤ) : ℤ :=
  if position_ms = -1 then 0
  else if last_position = -1 ∨ |position_ms - last_position| ≥ 5 then 100
  else 50

/-- The pitch-stability heuristic of `XWaxDVS::operator()`: 0 before any
sample has been pushed or when the pitch is unchanged; otherwise graded by the
stability ratio `|pitch / (pitch − previousPitch)|` against the 3.0 / 6.0
thresholds. -/
def pitch_quality (ring_filled : ℕ) (last_pitch pitch : ℚ) : ℤ :=
  if 0 < ring_filled then
    let pitch_diff := pitch - last_pitch
    if pitch_diff ≠ 0 then
      let pitch_stability := |pitch / pitch_diff|
      if pitch_stability < 3 then 0
      else if pitch_stability > 6 then 100
      else 75
    else 0
  else 0

/-- One tick of `XWaxDVS`: the parameter codes read at the top of
`operator()`, the channel and frame counts of the tick, the tempo and lead-in
controls, and the black-box correlator's results after this tick's samples
(pitch, and position in milliseconds with −1 as the no-lock sentinel). -/
structure DVSTick where
  params : DVSParams
  channels : ℤ
  frames : ℤ
  tempo_in : ℚ
  leadin : ℚ
  pitch : ℚ
  position_ms : ℤ
deriving DecidableEq, Repr

/-- Modelled from the spec: `XWaxDVS::convert_output`, applied to both locked
outputs of `XWaxDVS::operator()`, has no definition in the provided sources
(only its two call sites exist).  Per the spec, the locked "position" output is
the correlator position converted to seconds minus the lead-in offset, and the
locked "timecode" output is the raw correlator position in milliseconds, with
no lead-in subtraction. -/
def dvs_locked_outputs (position_ms : ℤ) (leadin : ℚ) : ℚ × ℤ :=
  ((position_ms : ℚ) / 1000 - leadin, position_ms)

/-- The head of `XWaxDVS::operator()`: when the vinyl type, RPM or pitch
filter differs from the last-seen value, reinitialize the timecoder and record
the new parameter codes. -/
def dvs_handle_params (s : DVSState) (t : DVSTick) : DVSState :=
  if t.params.vinyl_type ≠ s.last_vinyl_type ∨ t.params.speed ≠ s.last_speed ∨
      t.params.pitch_filter ≠ s.last_pitch_filter then
    { init_timecoder s with
      last_vinyl_type := t.params.vinyl_type
      last_speed := t.params.speed
      last_pitch_filter := t.params.pitch_filter }
  else s

/-- `XWaxDVS::operator()`: reinitialize on any parameter change; early-out
with zeroed/invalid outputs when uninitialized, with fewer than two channels,
or without frames; otherwise submit the tick's samples (the conversion to the
correlator's fixed-point format feeds the black box and is absorbed into the
tick's correlator results), publish speed/tempo and the position outputs, and
push the position/pitch stability score into the ring buffer, publishing the
clamped windowed average. -/
def dvs_tick (s : DVSState) (t : DVSTick) : DVSState :=
  let s := dvs_handle_params s t
  if ¬s.initialized then { s with outputs := DVSOutputs.invalid }
  else if t.channels < 2 ∨ t.frames ≤ 0 then { s with outputs := DVSOutputs.invalid }
  else
    let pitch := t.pitch
    let position_ms := t.position_ms
    let (pos_out, tc_out) :=
      if position_ms ≥ 0 then
        let (p, tc) := dvs_locked_outputs position_ms t.leadin
        (p, tc)
      else (0, -1)
    let valid_out := position_ms ≥ 0
    let pq := position_quality s.quality_last_position position_ms
    let piq := pitch_quality s.quality_ring_filled s.quality_last_pitch pitch
    let ring := s.quality_ring.set s.quality_ring_index (pq + piq)
    let index := (s.quality_ring_index + 1) % QUALITY_RING_SIZE
    let filled :=
      if s.quality_ring_filled < QUALITY_RING_SIZE then s.quality_ring_filled + 1
      else s.quality_ring_filled
    let quality_sum := (ring.take filled).sum
    let quality : ℚ := (quality_sum : ℚ) / (2 * 100 * (filled : ℚ))
    { s with
      quality_ring := ring
      quality_ring_index := index
      quality_ring_filled := filled
      quality_last_position := position_ms
      quality_last_pitch := pitch
      outputs :=
        { speed := pitch
          tempo := pitch * t.tempo_in
          position := pos_out
          timecode := tc_out
          quality := min 1 (max 0 quality)
          valid := valid_out } }

/-- A run of the DVS engine over a sequence of ticks. -/
def dvs_run (s : DVSState) (ts : List DVSTick) : DVSState :=
  ts.foldl dvs_tick s

/-- The audio-frame contribution of a tick to the sample-position counter:
`tick.frames` when positive, else nothing. -/
def tick_frames (t : LTCTick) : ℕ :=
  if 0 < t.frames then t.frames.toNat else 0

/-! ## Concrete fixtures (used to instantiate theorems at explicit inputs) -/

/-- Decoder controls: zero offset, seconds output, `Auto` rate, default queue. -/
def inpAuto : LTCInputs := ⟨0, OutputFormat.Seconds, FrameRate.Auto, 32⟩

/-- A decoded frame with the drop-frame bit set and frame number 10. -/
def frameDF : LTCFrame := ⟨0, 0, 0, 0, 0, 0, 1, 0, true, false, 0⟩

/-- A decoded frame with frame number 26, drop-frame bit clear. -/
def frame26 : LTCFrame := ⟨0, 0, 0, 0, 0, 0, 2, 6, false, false, 0⟩

/-- A decoded frame with frame number 24, drop-frame bit clear. -/
def frame24 : LTCFrame := ⟨0, 0, 0, 0, 0, 0, 2, 4, false, false, 0⟩

/-- A decoded frame with frame number 10, drop-frame bit clear. -/
def frame10 : LTCFrame := ⟨0, 0, 0, 0, 0, 0, 1, 0, false, false, 0⟩

/-- The decoder prepared at 48 kHz at time 0. -/
def sDec : LTCState := ltc_prepare LTCState.init 48000 0

/-- A 64-frame tick at time 0 whose codec queue drained exactly one frame. -/
def tickWith (f : LTCFrame) : LTCTick := ⟨64, [f], 0⟩

/-- A DVS parameter triple. -/
def prW : DVSParams := ⟨0, 0, 0⟩

/-- A freshly reinitialized DVS engine bound to `prW` at 44.1 kHz. -/
def sDVSFresh : DVSState :=
  { init_timecoder { DVSState.init with rate := 44100 } with
    last_vinyl_type := 0, last_speed := 0, last_pitch_filter := 0 }

/-- A processed DVS tick with a locked correlator at position 0 ms. -/
def tDVSLocked : DVSTick := ⟨prW, 2, 64, 120, 0, 1, 0⟩

/-- A processed DVS tick with an unlocked correlator. -/
def tDVSUnlocked : DVSTick := ⟨prW, 2, 64, 120, 0, 1, -1⟩

/-- A DVS state with decode history: bound to `prW`, one 100-score entry in
the ring. -/
def sDVSHist : DVSState :=
  { sDVSFresh with
    quality_ring := (List.replicate QUALITY_RING_SIZE (0 : ℤ)).set 0 100
    quality_ring_index := 1, quality_ring_filled := 1
    quality_last_position := 0, quality_last_pitch := 1 }

/-- A zero-frame DVS tick that changes the vinyl type. -/
def tDVSZeroFramesNewVinyl : DVSTick := ⟨⟨1, 0, 0⟩, 2, 0, 120, 0, 1, 10⟩

/-- A zero-frame DVS tick with unchanged parameters. -/
def tDVSZeroFrames : DVSTick := ⟨prW, 2, 0, 120, 0, 1, 10⟩

/-- The steady tick sequence of the quality-convergence scenario: unchanged
parameters, stereo input, constant pitch `p`, and a correlator position
advancing by exactly 10 ms per tick from `P`. -/
def steady_tick (pr : DVSParams) (p : ℚ) (P : ℤ) (tin lin : ℚ) (i : ℕ) : DVSTick :=
  ⟨pr, 2, 1, tin, lin, p, P + 10 * i⟩

/-- The encode-cadence relation of the generator state: the write-byte index
and the timecode-advance count as functions of the number of encoded bytes. -/
def GenCadence (s : GenState) : Prop :=
  s.current_byte = s.bytes_encoded % 10 ∧ s.inc_count = s.bytes_encoded / 10

instance (s : GenState) : Decidable (GenCadence s) := by
  unfold GenCadence
  infer_instance

/-- The structural invariant of the DVS quality state: the ring never holds
more than its 32 slots and the published quality is clamped to [0, 1]. -/
def DVSInv (s : DVSState) : Prop :=
  s.quality_ring_filled ≤ QUALITY_RING_SIZE ∧
  s.quality_ring.length = QUALITY_RING_SIZE ∧
  0 ≤ s.outputs.quality ∧ s.outputs.quality ≤ 1

/-! ## Theorems -/

theorem check_timeout_sample_position (s : LTCState) (now : ℕ) :
    (check_timeout s now).sample_position = s.sample_position := by
  unfold check_timeout
  split <;> rfl

theorem check_timeout_frame_rate (s : LTCState) (now : ℕ) :
    (check_timeout s now).outputs.frame_rate = s.outputs.frame_rate := by
  unfold check_timeout
  split <;> rfl

theorem check_timeout_has_decoder (s : LTCState) (now : ℕ) :
    (check_timeout s now).has_decoder = s.has_decoder := by
  unfold check_timeout
  split <;> rfl

theorem check_timeout_last_valid_time (s : LTCState) (now : ℕ) :
    (check_timeout s now).last_valid_time = s.last_valid_time := by
  unfold check_timeout
  split <;> rfl

/-- On a processed tick that drained at least one frame, the published frame
rate is the configured rate, or the auto-detected one under `Auto`. -/
theorem ltc_tick_frame_rate_of_decoded (inp : LTCInputs) (s : LTCState) (t : LTCTick)
    (f : LTCFrame) (hdec : s.has_decoder = true) (hfr : 0 < t.frames)
    (hlast : t.decoded.getLast? = some f) :
    (ltc_tick inp s t).outputs.frame_rate =
      (if inp.framerate ≠ FrameRate.Auto then get_configured_fps inp
       else get_frame_rate_from_standard (detect_standard inp f) f.dfbit) := by
  unfold ltc_tick
  simp only [hdec, Bool.not_true, Bool.false_eq_true, if_false, not_le.mpr hfr, hlast,
    check_timeout_frame_rate]
  simp [check_timeout_frame_rate]

/-- C1: for every decoded LTC frame processed by the decode engine while the
user-selected rate standard is Auto: if the frame's drop-frame bit is set the
published frame rate is 29.97 regardless of the frame number; otherwise a
frame number ≥ 25 publishes 30 fps, a frame number of 24 publishes 25 fps,
and a frame number below 24 publishes 24 fps. -/
theorem C1_auto_rate_detection (inp : LTCInputs) (s : LTCState) (t : LTCTick)
    (f : LTCFrame) (hauto : inp.framerate = FrameRate.Auto)
    (hdec : s.has_decoder = true) (hfr : 0 < t.frames)
    (hlast : t.decoded.getLast? = some f) :
    (f.dfbit = true → (ltc_tick inp s t).outputs.frame_rate = 2997/100) ∧
    (f.dfbit = false → 25 ≤ f.frame_tens * 10 + f.frame_units →
      (ltc_tick inp s t).outputs.frame_rate = 30) ∧
    (f.dfbit = false → f.frame_tens * 10 + f.frame_units = 24 →
      (ltc_tick inp s t).outputs.frame_rate = 25) ∧
    (f.dfbit = false → f.frame_tens * 10 + f.frame_units < 24 →
      (ltc_tick inp s t).outputs.frame_rate = 24) := by
  rw [ltc_tick_frame_rate_of_decoded inp s t f hdec hfr hlast]
  simp only [hauto, ne_eq, not_true_eq_false, if_false]
  refine ⟨fun hdf => ?_, fun hdf h25 => ?_, fun hdf h24 => ?_, fun hdf hlt => ?_⟩ <;>
    simp only [detect_standard, hauto, ne_eq, not_true_eq_false, if_false, hdf,
      Bool.false_eq_true, get_frame_rate_from_standard] <;>
    split_ifs <;> first | rfl | omega

/-- Witness for C1: the four auto-detection branches at the concrete frames
with drop bit set, frame number 26, frame number 24 and frame number 10. -/
theorem C1_auto_rate_detection_witness :
    (ltc_tick inpAuto sDec (tickWith frameDF)).outputs.frame_rate = 2997/100 ∧
    (ltc_tick inpAuto sDec (tickWith frame26)).outputs.frame_rate = 30 ∧
    (ltc_tick inpAuto sDec (tickWith frame24)).outputs.frame_rate = 25 ∧
    (ltc_tick inpAuto sDec (tickWith frame10)).outputs.frame_rate = 24 :=
  ⟨(C1_auto_rate_detection inpAuto sDec (tickWith frameDF) frameDF rfl (by decide)
      (by decide) rfl).1 rfl,
   (C1_auto_rate_detection inpAuto sDec (tickWith frame26) frame26 rfl (by decide)
      (by decide) rfl).2.1 rfl (by decide),
   (C1_auto_rate_detection inpAuto sDec (tickWith frame24) frame24 rfl (by decide)
      (by decide) rfl).2.2.1 rfl (by decide),
   (C1_auto_rate_detection inpAuto sDec (tickWith frame10) frame10 rfl (by decide)
      (by decide) rfl).2.2.2 rfl (by decide)⟩

/-- C8: the decode engine's output-unit conversion is purely multiplicative in
the selected unit's factor (×1 seconds, ×1000 ms, ×1e6 µs, ×1e9 ns,
×705,600,000 flicks); in particular 2.0 s → 2000.0 ms and
1.0 s → 705,600,000.0 flicks. -/
theorem C8_convert_output_multiplicative :
    ∀ (offset : ℤ) (fr : FrameRate) (q : ℤ) (s : ℚ),
      convert_output ⟨offset, OutputFormat.Seconds, fr, q⟩ s = s * 1 ∧
      convert_output ⟨offset, OutputFormat.Milliseconds, fr, q⟩ s = s * 1000 ∧
      convert_output ⟨offset, OutputFormat.Microseconds, fr, q⟩ s = s * 1000000 ∧
      convert_output ⟨offset, OutputFormat.Nanoseconds, fr, q⟩ s = s * 1000000000 ∧
      convert_output ⟨offset, OutputFormat.Flicks, fr, q⟩ s = s * 705600000 ∧
      convert_output ⟨offset, OutputFormat.Milliseconds, fr, q⟩ 2 = 2000 ∧
      convert_output ⟨offset, OutputFormat.Flicks, fr, q⟩ 1 = 705600000 := by
  intro offset fr q s
  refine ⟨?_, ?_, ?_, ?_, ?_, ?_, ?_⟩
  all_goals simp [convert_output]
  all_goals norm_num

/-- C2 counterexample: the timeout check does not run on every tick.  After a
frame decodes at time 0, a tick with zero frames at time 1000 ms — more than
500 ms past the last decoded frame — leaves `valid` at `true`, because
`operator()` returns before `check_timeout` when `frames <= 0`. -/
theorem C2_counterexample :
    1000 - (ltc_tick inpAuto sDec (tickWith frame24)).last_valid_time > 500 ∧
    (ltc_tick inpAuto (ltc_tick inpAuto sDec (tickWith frame24))
        ⟨0, [], 1000⟩).outputs.valid = true := by
  constructor
  · decide
  · decide

/-- C2 (amended): on every tick the decode engine actually processes (decoder
present and positive frame count) the timeout check runs — regardless of
whether a frame decoded in that tick — and forces `valid` to false whenever
more than 500 ms elapsed since the last successfully decoded frame. -/
theorem C2_timeout_on_processed_ticks (inp : LTCInputs) (s : LTCState) (t : LTCTick)
    (hdec : s.has_decoder = true) (hfr : 0 < t.frames)
    (helapsed : t.now - (ltc_tick inp s t).last_valid_time > 500) :
    (ltc_tick inp s t).outputs.valid = false := by
  unfold ltc_tick at helapsed ⊢
  simp only [hdec, Bool.not_true, Bool.false_eq_true, if_false, not_le.mpr hfr] at helapsed ⊢
  simp only [not_true_eq_false, if_false] at helapsed ⊢
  rcases h : t.decoded.getLast? with _ | f <;>
    simp only [h, check_timeout_last_valid_time] at helapsed ⊢ <;>
    · unfold check_timeout
      rw [if_pos helapsed]

/-- Witness for C2 (amended): a processed 1-frame tick at time 1000 ms with an
empty codec queue, 1000 ms after the last decoded frame, clears `valid`. -/
theorem C2_timeout_on_processed_ticks_witness :
    (ltc_tick inpAuto sDec ⟨1, [], 1000⟩).outputs.valid = false :=
  C2_timeout_on_processed_ticks inpAuto sDec ⟨1, [], 1000⟩ (by decide) (by decide)
    (by decide)

/-- C7: the decode engine's monotonic sample-position counter never decreases
across ticks, and after any reinitialization at a valid sample rate (> 1) a
run's counter equals the sum of the processed ticks' frame counts. -/
theorem C7_sample_position_counter :
    (∀ (inp : LTCInputs) (s : LTCState) (t : LTCTick),
      s.sample_position ≤ (ltc_tick inp s t).sample_position) ∧
    (∀ (inp : LTCInputs) (s : LTCState) (now : ℕ) (ts : List LTCTick), 1 < s.rate →
      (ltc_run inp (reinit_decoder s now) ts).sample_position =
        (ts.map tick_frames).sum) := by
  have hsp : ∀ (inp : LTCInputs) (s : LTCState) (t : LTCTick), s.has_decoder = true →
      (ltc_tick inp s t).sample_position = s.sample_position + tick_frames t := by
    intro inp s t hdec
    unfold ltc_tick tick_frames
    simp only [hdec, Bool.not_true, Bool.false_eq_true, if_false, not_true_eq_false]
    rcases le_or_lt t.frames 0 with hle | hlt
    · rw [if_pos hle, if_neg (not_lt.mpr hle), Nat.add_zero]
    · rw [if_neg (not_le.mpr hlt), if_pos hlt]
      rcases h : t.decoded.getLast? with _ | f <;>
        simp only [h, check_timeout_sample_position]
  have hdecoder : ∀ (inp : LTCInputs) (s : LTCState) (t : LTCTick),
      (ltc_tick inp s t).has_decoder = s.has_decoder := by
    intro inp s t
    unfold ltc_tick
    split
    · rfl
    · split
      · rfl
      · rcases h : t.decoded.getLast? with _ | f <;>
          simp only [h, check_timeout_has_decoder]
  constructor
  · intro inp s t
    unfold ltc_tick
    split
    · exact le_refl _
    · split
      · exact le_refl _
      · rcases h : t.decoded.getLast? with _ | f <;>
          simp only [h, check_timeout_sample_position] <;>
          exact Nat.le_add_right _ _
  · intro inp s now ts hrate
    have hrun : ∀ (ts : List LTCTick) (s0 : LTCState), s0.has_decoder = true →
        (ltc_run inp s0 ts).sample_position =
          s0.sample_position + (ts.map tick_frames).sum := by
      intro ts
      induction ts with
      | nil => intro s0 _; simp [ltc_run]
      | cons t ts ih =>
        intro s0 h0
        have h1 : (ltc_tick inp s0 t).has_decoder = true := by
          rw [hdecoder]; exact h0
        calc (ltc_run inp s0 (t :: ts)).sample_position
            = (ltc_run inp (ltc_tick inp s0 t) ts).sample_position := rfl
          _ = (ltc_tick inp s0 t).sample_position + (ts.map tick_frames).sum := ih _ h1
          _ = s0.sample_position + tick_frames t + (ts.map tick_frames).sum := by
              rw [hsp inp s0 t h0]
          _ = s0.sample_position + ((t :: ts).map tick_frames).sum := by
              simp [Nat.add_assoc]
    have hinit : (reinit_decoder s now).has_decoder = true := by
      unfold reinit_decoder
      rw [if_neg (not_le.mpr hrate)]
    have hzero : (reinit_decoder s now).sample_position = 0 := by
      unfold reinit_decoder
      rw [if_neg (not_le.mpr hrate)]
    rw [hrun ts _ hinit, hzero, Nat.zero_add]

theorem truncToInt_intCast (n : ℤ) : truncToInt (n : ℚ) = n := by
  unfold truncToInt
  rw [Rat.num_intCast, Rat.den_intCast]
  exact Int.tdiv_one n

/-- C9 (code-bug evaluation): at encoder offset −1 s with the transport at 0
flicks, `LTCGenerator::update` hands the codec the SMPTE time 00:00:255 — the
`uint8_t` wrap of the truncating division's negative remainder, not a valid
seconds field — while the seconds-of-day decomposition the claim describes
gives 23:59:59. -/
theorem C9_negative_offset_wraps :
    generator_initial_smpte 0 (-1) = (0, 0, 255, 0) ∧
    spec_initial_smpte (-1) = (23, 59, 59, 0) ∧ ¬(255 : ℤ) < 60 := by
  have harg : ((0 : ℤ) : ℚ) / 705600000 + ((-1 : ℤ) : ℚ) = ((-1 : ℤ) : ℚ) := by
    norm_num
  have htrunc : truncToInt (((0 : ℤ) : ℚ) / 705600000 + ((-1 : ℤ) : ℚ)) = -1 := by
    rw [harg, truncToInt_intCast]
  refine ⟨?_, by decide, by decide⟩
  simp only [generator_initial_smpte, htrunc]
  decide

theorem encode_one_byte_cadence (gen : ℕ → ℚ → List ℕ) (tempo : ℚ) (s : GenState)
    (h : GenCadence s) : GenCadence (encode_one_byte gen tempo s) := by
  obtain ⟨h1, h2⟩ := h
  simp only [encode_one_byte, GenCadence]
  split_ifs with hb
  · constructor <;> simp <;> omega
  · constructor <;> simp <;> omega

theorem gen_frame_step_cadence (gen : ℕ → ℚ → List ℕ) (tempo : ℚ) (s : GenState)
    (h : GenCadence s) : GenCadence (gen_frame_step gen tempo s) := by
  unfold gen_frame_step
  split
  · exact encode_one_byte_cadence gen tempo s h
  · exact h

theorem gen_tick_cadence (gen : ℕ → ℚ → List ℕ) (s : GenState) (frames : ℕ)
    (tempo : ℚ) (h : GenCadence s) : GenCadence (gen_tick gen s frames tempo) := by
  unfold gen_tick
  induction frames with
  | zero => exact h
  | succ n ih =>
    rw [Function.iterate_succ_apply']
    exact gen_frame_step_cadence gen tempo _ ih

theorem gen_run_cadence (gen : ℕ → ℚ → List ℕ) (s : GenState) (ts : List (ℕ × ℚ))
    (h : GenCadence s) : GenCadence (gen_run gen s ts) := by
  induction ts generalizing s with
  | nil => exact h
  | cons t ts ih => exact ih _ (gen_tick_cadence gen s t.1 t.2 h)

/-- C6: in the encode engine, across every sequence of ticks — for every codec
behaviour and every assignment of per-tick tempos — the write-byte index stays
in 0..9, equals the encoded-byte count modulo 10, and the internal timecode
counter has advanced exactly once per 10 encoded bytes; tempo enters the
encoding only through the per-byte speed argument, whose bit-duration scaling
is tempo / nominalTempo with nominal tempo 120. -/
theorem C6_encoder_cadence :
    (∀ (gen : ℕ → ℚ → List ℕ) (ts : List (ℕ × ℚ)),
      (gen_run gen GenState.init ts).current_byte < 10 ∧
      (gen_run gen GenState.init ts).current_byte =
        (gen_run gen GenState.init ts).bytes_encoded % 10 ∧
      (gen_run gen GenState.init ts).inc_count =
        (gen_run gen GenState.init ts).bytes_encoded / 10) ∧
    (∀ tempo : ℚ, bit_duration_scale tempo = tempo / 120) := by
  constructor
  · intro gen ts
    have h : GenCadence (gen_run gen GenState.init ts) :=
      gen_run_cadence gen GenState.init ts (by constructor <;> rfl)
    obtain ⟨h1, h2⟩ := h
    exact ⟨h1 ▸ Nat.mod_lt _ (by decide), h1, h2⟩
  · intro tempo
    unfold bit_duration_scale encode_speed_arg
    rw [inv_div]

/-- Witness for C7: preparing at 48 kHz then running ticks of 64, −3 (skipped)
and 36 frames leaves the counter at 64 + 0 + 36. -/
theorem C7_sample_position_counter_witness :
    (1 : ℚ) < 48000 ∧
    (ltc_run inpAuto (reinit_decoder { LTCState.init with rate := 48000 } 0)
        [⟨64, [], 0⟩, ⟨-3, [], 5⟩, ⟨36, [], 10⟩]).sample_position =
      ([⟨64, [], 0⟩, ⟨-3, [], 5⟩, (⟨36, [], 10⟩ : LTCTick)].map tick_frames).sum :=
  ⟨by decide,
   C7_sample_position_counter.2 inpAuto { LTCState.init with rate := 48000 } 0
     [⟨64, [], 0⟩, ⟨-3, [], 5⟩, ⟨36, [], 10⟩] (by decide)⟩

theorem dvs_handle_params_unchanged (s : DVSState) (t : DVSTick)
    (hv : t.params.vinyl_type = s.last_vinyl_type)
    (hs : t.params.speed = s.last_speed)
    (hf : t.params.pitch_filter = s.last_pitch_filter) :
    dvs_handle_params s t = s := by
  unfold dvs_handle_params
  rw [if_neg]
  push_neg
  exact ⟨hv, hs, hf⟩

/-- On a fully processed tick (no parameter change, initialized, stereo,
frames present) `XWaxDVS::operator()` performs exactly the position/quality
update of its main path. -/
theorem dvs_tick_processed (s : DVSState) (t : DVSTick)
    (hv : t.params.vinyl_type = s.last_vinyl_type)
    (hs : t.params.speed = s.last_speed)
    (hf : t.params.pitch_filter = s.last_pitch_filter)
    (hinit : s.initialized = true) (hch : 2 ≤ t.channels) (hfr : 0 < t.frames) :
    dvs_tick s t =
      { s with
        quality_ring := s.quality_ring.set s.quality_ring_index
          (position_quality s.quality_last_position t.position_ms +
            pitch_quality s.quality_ring_filled s.quality_last_pitch t.pitch)
        quality_ring_index := (s.quality_ring_index + 1) % QUALITY_RING_SIZE
        quality_ring_filled :=
          if s.quality_ring_filled < QUALITY_RING_SIZE then s.quality_ring_filled + 1
          else s.quality_ring_filled
        quality_last_position := t.position_ms
        quality_last_pitch := t.pitch
        outputs :=
          { speed := t.pitch
            tempo := t.pitch * t.tempo_in
            position :=
              if t.position_ms ≥ 0 then (t.position_ms : ℚ) / 1000 - t.leadin else 0
            timecode := if t.position_ms ≥ 0 then t.position_ms else -1
            quality :=
              min 1 (max 0
                ((((s.quality_ring.set s.quality_ring_index
                      (position_quality s.quality_last_position t.position_ms +
                        pitch_quality s.quality_ring_filled s.quality_last_pitch
                          t.pitch)).take
                    (if s.quality_ring_filled < QUALITY_RING_SIZE then
                      s.quality_ring_filled + 1
                    else s.quality_ring_filled)).sum : ℚ) /
                  (2 * 100 *
                    ((if s.quality_ring_filled < QUALITY_RING_SIZE then
                        s.quality_ring_filled + 1
                      else s.quality_ring_filled : ℕ) : ℚ))))
            valid := decide (t.position_ms ≥ 0) } } := by
  unfold dvs_tick
  rw [dvs_handle_params_unchanged s t hv hs hf]
  rw [hinit]
  simp only [Bool.not_true, Bool.false_eq_true, if_false, not_true_eq_false]
  rw [if_neg (by omega : ¬(t.channels < 2 ∨ t.frames ≤ 0))]
  unfold dvs_locked_outputs
  split_ifs with hpos <;> simp [hinit]

theorem dvs_handle_params_matches (s : DVSState) (t : DVSTick) :
    t.params.vinyl_type = (dvs_handle_params s t).last_vinyl_type ∧
    t.params.speed = (dvs_handle_params s t).last_speed ∧
    t.params.pitch_filter = (dvs_handle_params s t).last_pitch_filter := by
  unfold dvs_handle_params
  split_ifs with h
  · simp
  · push_neg at h
    exact h

theorem dvs_handle_params_idem (s : DVSState) (t : DVSTick) :
    dvs_handle_params (dvs_handle_params s t) t = dvs_handle_params s t := by
  obtain ⟨h1, h2, h3⟩ := dvs_handle_params_matches s t
  exact dvs_handle_params_unchanged _ t h1 h2 h3

theorem dvs_tick_handle_params (s : DVSState) (t : DVSTick) :
    dvs_tick s t = dvs_tick (dvs_handle_params s t) t := by
  conv_rhs => unfold dvs_tick
  rw [dvs_handle_params_idem]
  conv_lhs => unfold dvs_tick

/-- C3: on every DVS tick that processes audio, a locked correlator position
is published as position-in-seconds minus the lead-in, as the raw
position-in-milliseconds on the timecode output, and `valid = true`; the −1
no-lock sentinel publishes position 0, timecode −1 and `valid = false`. -/
theorem C3_dvs_outputs (s : DVSState) (t : DVSTick)
    (hinit : (dvs_handle_params s t).initialized = true)
    (hch : 2 ≤ t.channels) (hfr : 0 < t.frames) :
    (0 ≤ t.position_ms →
      (dvs_tick s t).outputs.position = (t.position_ms : ℚ) / 1000 - t.leadin ∧
      (dvs_tick s t).outputs.timecode = t.position_ms ∧
      (dvs_tick s t).outputs.valid = true) ∧
    (t.position_ms = -1 →
      (dvs_tick s t).outputs.position = 0 ∧
      (dvs_tick s t).outputs.timecode = -1 ∧
      (dvs_tick s t).outputs.valid = false) := by
  obtain ⟨h1, h2, h3⟩ := dvs_handle_params_matches s t
  rw [dvs_tick_handle_params, dvs_tick_processed _ t h1 h2 h3 hinit hch hfr]
  constructor
  · intro hp
    refine ⟨?_, ?_, ?_⟩ <;> simp [hp]
  · intro hp
    refine ⟨?_, ?_, ?_⟩ <;> simp [hp]

/-- Witness for C3: the locked and unlocked branches at a freshly initialized
engine, with the correlator locked at 0 ms and unlocked. -/
theorem C3_dvs_outputs_witness :
    ((dvs_tick sDVSFresh tDVSLocked).outputs.position =
        ((0 : ℤ) : ℚ) / 1000 - tDVSLocked.leadin ∧
      (dvs_tick sDVSFresh tDVSLocked).outputs.timecode = 0 ∧
      (dvs_tick sDVSFresh tDVSLocked).outputs.valid = true) ∧
    ((dvs_tick sDVSFresh tDVSUnlocked).outputs.position = 0 ∧
      (dvs_tick sDVSFresh tDVSUnlocked).outputs.timecode = -1 ∧
      (dvs_tick sDVSFresh tDVSUnlocked).outputs.valid = false) :=
  ⟨(C3_dvs_outputs sDVSFresh tDVSLocked (by decide) (by decide) (by decide)).1
      (by decide),
   (C3_dvs_outputs sDVSFresh tDVSUnlocked (by decide) (by decide) (by decide)).2
      rfl⟩

/-- C10 counterexample: an early-returning DVS tick does not always leave the
quality history unchanged — a zero-frame tick that also changes the vinyl
type reinitializes the engine, clearing a previously recorded ring entry,
before returning with invalid outputs. -/
theorem C10_counterexample :
    (dvs_tick sDVSHist tDVSZeroFramesNewVinyl).outputs.valid = false ∧
    (dvs_tick sDVSHist tDVSZeroFramesNewVinyl).outputs.quality = 0 ∧
    sDVSHist.quality_ring.getD 0 0 = 100 ∧
    (dvs_tick sDVSHist tDVSZeroFramesNewVinyl).quality_ring.getD 0 0 = 0 ∧
    (dvs_tick sDVSHist tDVSZeroFramesNewVinyl).quality_ring_filled = 0 := by
  refine ⟨by decide, ?_, by decide, by decide, by decide⟩
  show DVSOutputs.invalid.quality = 0
  rfl

/-- C10 (amended): a DVS tick that returns early (engine uninitialized, fewer
than 2 channels, or no frames) and does not change any of the
vinyl/RPM/pitch-filter parameters sets the outputs to zero/invalid and leaves
the entire remaining state — in particular the quality ring, its fill count
and index, and the last-position/last-pitch trackers — untouched; such a tick
that does change a parameter first reinitializes, which clears that history. -/
theorem C10_early_return_preserves_state (s : DVSState) (t : DVSTick)
    (hv : t.params.vinyl_type = s.last_vinyl_type)
    (hs : t.params.speed = s.last_speed)
    (hf : t.params.pitch_filter = s.last_pitch_filter)
    (hearly : s.initialized = false ∨ t.channels < 2 ∨ t.frames ≤ 0) :
    dvs_tick s t = { s with outputs := DVSOutputs.invalid } := by
  unfold dvs_tick
  rw [dvs_handle_params_unchanged s t hv hs hf]
  rcases hinit : s.initialized with _ | _
  · simp [hinit]
  · have hco : t.channels < 2 ∨ t.frames ≤ 0 := by
      rcases hearly with h | h
      · rw [hinit] at h
        exact absurd h (by simp)
      · exact h
    simp [hinit, hco]

/-- Witness for C10 (amended): a zero-frame tick with unchanged parameters on
an engine with recorded quality history zeroes the outputs and preserves the
state. -/
theorem C10_early_return_preserves_state_witness :
    dvs_tick sDVSHist tDVSZeroFrames =
      { sDVSHist with outputs := DVSOutputs.invalid } :=
  C10_early_return_preserves_state sDVSHist tDVSZeroFrames rfl rfl rfl
    (by decide)

theorem pitch_quality_unfilled (lp p : ℚ) : pitch_quality 0 lp p = 0 := by
  simp [pitch_quality]

theorem position_quality_no_prior_locked (pos : ℤ) (hp : 0 ≤ pos) :
    position_quality (-1) pos = 100 := by
  unfold position_quality
  rw [if_neg (by omega), if_pos (Or.inl rfl)]

theorem position_quality_no_lock (last : ℤ) : position_quality last (-1) = 0 := by
  unfold position_quality
  rw [if_pos rfl]

theorem position_quality_moving (last pos : ℤ) (h : |pos - last| ≥ 5)
    (hpos : pos ≠ -1) : position_quality last pos = 100 := by
  unfold position_quality
  rw [if_neg hpos, if_pos (Or.inr h)]

/-- C5 counterexample: when the correlator is already locked on the first tick
after reinitialization (here at position 0 ms), the value pushed into the
quality ring is 100, not 0 + 0 — a missing prior position yields
position-quality 100, not 0. -/
theorem C5_counterexample :
    (dvs_tick sDVSFresh tDVSLocked).quality_ring.getD 0 0 = 100 ∧
    (dvs_tick sDVSFresh tDVSLocked).quality_ring.getD 0 0 ≠ 0 := by
  constructor
  · decide
  · decide

/-- C5 (amended): reinitializing the DVS engine clears the quality ring buffer
and the last-position/last-pitch trackers; on the first tick after
reinitialization the pitch-quality contribution is 0 (no prior pitch sample),
so the value pushed into the ring — before any averaging — is 0 + 0 when the
correlator reports no lock on that tick, and 100 + 0 when it is locked (a
missing prior position counts as normal operation). -/
theorem C5_reinit_and_first_tick :
    (∀ s : DVSState, 0 < s.rate →
      (init_timecoder s).quality_ring = List.replicate QUALITY_RING_SIZE 0 ∧
      (init_timecoder s).quality_ring_index = 0 ∧
      (init_timecoder s).quality_ring_filled = 0 ∧
      (init_timecoder s).quality_last_position = -1 ∧
      (init_timecoder s).quality_last_pitch = 0) ∧
    (∀ (s : DVSState) (t : DVSTick),
      s.initialized = true → s.quality_ring_filled = 0 →
      s.quality_last_position = -1 →
      t.params.vinyl_type = s.last_vinyl_type → t.params.speed = s.last_speed →
      t.params.pitch_filter = s.last_pitch_filter →
      2 ≤ t.channels → 0 < t.frames →
      ((t.position_ms = -1 →
        (dvs_tick s t).quality_ring = s.quality_ring.set s.quality_ring_index 0) ∧
       (0 ≤ t.position_ms →
        (dvs_tick s t).quality_ring =
          s.quality_ring.set s.quality_ring_index 100))) := by
  constructor
  · intro s h
    unfold init_timecoder
    rw [if_neg (not_le.mpr h)]
    exact ⟨rfl, rfl, rfl, rfl, rfl⟩
  · intro s t hinit hfill hlast hv hs hf hch hfr
    rw [dvs_tick_processed s t hv hs hf hinit hch hfr]
    simp only [hlast, hfill, pitch_quality_unfilled, Int.add_zero]
    constructor
    · intro hp
      rw [hp, position_quality_no_lock]
    · intro hp
      rw [position_quality_no_prior_locked t.position_ms hp]

/-- Witness for C5 (amended): reinitializing a 44.1 kHz engine clears the
quality state, and the first tick after reinitialization with an unlocked
correlator pushes 0 into slot 0 of the cleared ring. -/
theorem C5_reinit_and_first_tick_witness :
    ((init_timecoder { DVSState.init with rate := 44100 }).quality_ring =
        List.replicate QUALITY_RING_SIZE 0 ∧
      (init_timecoder { DVSState.init with rate := 44100 }).quality_ring_index = 0 ∧
      (init_timecoder { DVSState.init with rate := 44100 }).quality_ring_filled = 0 ∧
      (init_timecoder { DVSState.init with rate := 44100 }).quality_last_position
        = -1 ∧
      (init_timecoder { DVSState.init with rate := 44100 }).quality_last_pitch
        = 0) ∧
    (dvs_tick sDVSFresh tDVSUnlocked).quality_ring =
      sDVSFresh.quality_ring.set sDVSFresh.quality_ring_index 0 :=
  ⟨C5_reinit_and_first_tick.1 { DVSState.init with rate := 44100 } (by decide),
   (C5_reinit_and_first_tick.2 sDVSFresh tDVSUnlocked rfl rfl rfl rfl rfl rfl
      (by decide) (by decide)).1 rfl⟩

theorem list_set_replicate (n i : ℕ) (x : ℤ) :
    (List.replicate n x).set i x = List.replicate n x := by
  induction n generalizing i with
  | zero => rfl
  | succ m ih =>
    cases i with
    | zero => simp [List.replicate_succ]
    | succ j => simp [List.replicate_succ, ih]

theorem list_take_set_succ (l : List ℤ) (k : ℕ) (a : ℤ) (h : k < l.length) :
    (l.set k a).take (k + 1) = l.take k ++ [a] := by
  induction l generalizing k with
  | nil => simp at h
  | cons x xs ih =>
    cases k with
    | zero => simp
    | succ j =>
      simp only [List.set_cons_succ, List.take_succ_cons, List.cons_append,
        List.cons.injEq, true_and]
      exact ih j (by simpa using h)

/-- Both early-outs of `XWaxDVS::operator()` zero the outputs and leave the
rest of the (possibly just reinitialized) state alone. -/
theorem dvs_tick_early_out (s : DVSState) (t : DVSTick)
    (hearly : (dvs_handle_params s t).initialized = false ∨ t.channels < 2 ∨
      t.frames ≤ 0) :
    dvs_tick s t = { dvs_handle_params s t with outputs := DVSOutputs.invalid } := by
  unfold dvs_tick
  rcases hb : (dvs_handle_params s t).initialized with _ | _
  · simp [hb]
  · have hco : t.channels < 2 ∨ t.frames ≤ 0 := by
      rcases hearly with h | h
      · rw [hb] at h
        exact absurd h (by simp)
      · exact h
    simp [hb, hco]

theorem dvs_handle_params_inv (s : DVSState) (t : DVSTick) (h : DVSInv s) :
    DVSInv (dvs_handle_params s t) := by
  obtain ⟨h1, h2, h3, h4⟩ := h
  unfold dvs_handle_params init_timecoder
  split_ifs with hc hr
  · exact ⟨h1, h2, h3, h4⟩
  · exact ⟨by norm_num, by simp, h3, h4⟩
  · exact ⟨h1, h2, h3, h4⟩

theorem dvs_tick_inv (s : DVSState) (t : DVSTick) (h : DVSInv s) :
    DVSInv (dvs_tick s t) := by
  obtain ⟨h1, h2, h3, h4⟩ := dvs_handle_params_inv s t h
  by_cases hinit : (dvs_handle_params s t).initialized = true
  · by_cases hch : 2 ≤ t.channels
    · by_cases hfr : 0 < t.frames
      · obtain ⟨m1, m2, m3⟩ := dvs_handle_params_matches s t
        rw [dvs_tick_handle_params, dvs_tick_processed _ t m1 m2 m3 hinit hch hfr]
        refine ⟨?_, ?_, ?_, ?_⟩
        · show (if (dvs_handle_params s t).quality_ring_filled < QUALITY_RING_SIZE
              then (dvs_handle_params s t).quality_ring_filled + 1
              else (dvs_handle_params s t).quality_ring_filled) ≤ QUALITY_RING_SIZE
          split_ifs with hlt <;> omega
        · show ((dvs_handle_params s t).quality_ring.set _ _).length
              = QUALITY_RING_SIZE
          rw [List.length_set]
          exact h2
        · exact le_min (by norm_num) (le_max_left 0 _)
        · exact min_le_left 1 _
      · rw [dvs_tick_early_out s t (Or.inr (Or.inr (by omega)))]
        exact ⟨h1, h2, le_refl 0, zero_le_one⟩
    · rw [dvs_tick_early_out s t (Or.inr (Or.inl (by omega)))]
      exact ⟨h1, h2, le_refl 0, zero_le_one⟩
  · rw [dvs_tick_early_out s t (Or.inl (by simpa using hinit))]
    exact ⟨h1, h2, le_refl 0, zero_le_one⟩

theorem dvs_run_inv (s : DVSState) (ts : List DVSTick) (h : DVSInv s) :
    DVSInv (dvs_run s ts) := by
  induction ts generalizing s with
  | nil => exact h
  | cons t ts ih => exact ih _ (dvs_tick_inv s t h)

theorem dvs_run_append_singleton (s : DVSState) (l : List DVSTick) (t : DVSTick) :
    dvs_run s (l ++ [t]) = dvs_tick (dvs_run s l) t := by
  unfold dvs_run
  rw [List.foldl_append]
  rfl

/-- The state of the DVS engine along the steady quality scenario: after `k`
ticks every slot written so far holds the score 100, the index and fill count
track `k`, the trackers follow the constant pitch and advancing position, and
from the first tick on the published quality is exactly 1/2. -/
theorem steady_run_state (pr : DVSParams) (p : ℚ) (P : ℤ) (tin lin : ℚ)
    (s : DVSState)
    (hinit : s.initialized = true) (hlen : s.quality_ring.length = QUALITY_RING_SIZE)
    (hidx : s.quality_ring_index = 0) (hfill : s.quality_ring_filled = 0)
    (hlast : s.quality_last_position = -1)
    (hv : s.last_vinyl_type = pr.vinyl_type) (hs : s.last_speed = pr.speed)
    (hf : s.last_pitch_filter = pr.pitch_filter) (hP : 0 ≤ P) :
    ∀ k : ℕ,
      (dvs_run s ((List.range k).map (steady_tick pr p P tin lin))).initialized
          = true ∧
      (dvs_run s ((List.range k).map (steady_tick pr p P tin lin))).last_vinyl_type
          = pr.vinyl_type ∧
      (dvs_run s ((List.range k).map (steady_tick pr p P tin lin))).last_speed
          = pr.speed ∧
      (dvs_run s ((List.range k).map (steady_tick pr p P tin lin))).last_pitch_filter
          = pr.pitch_filter ∧
      (dvs_run s ((List.range k).map (steady_tick pr p P tin lin))).quality_ring.length
          = QUALITY_RING_SIZE ∧
      (dvs_run s ((List.range k).map (steady_tick pr p P tin lin))).quality_ring_index
          = k % 32 ∧
      (dvs_run s ((List.range k).map (steady_tick pr p P tin lin))).quality_ring_filled
          = min k 32 ∧
      (dvs_run s ((List.range k).map (steady_tick pr p P tin lin))).quality_ring.take
            (min k 32)
          = List.replicate (min k 32) 100 ∧
      (dvs_run s ((List.range k).map (steady_tick pr p P tin lin))).quality_last_position
          = (if k = 0 then -1 else P + 10 * ((k : ℤ) - 1)) ∧
      (0 < k →
        (dvs_run s
            ((List.range k).map (steady_tick pr p P tin lin))).quality_last_pitch
          = p) ∧
      (0 < k →
        (dvs_run s ((List.range k).map (steady_tick pr p P tin lin))).outputs.quality
          = 1/2) := by
  intro k
  induction k with
  | zero =>
    simp only [List.range_zero, List.map_nil, dvs_run, List.foldl_nil]
    refine ⟨hinit, hv, hs, hf, hlen, by simp [hidx], by simp [hfill], ?_, ?_, ?_, ?_⟩
    · simp [hfill]
    · simp [hlast]
    · intro h
      exact absurd h (by omega)
    · intro h
      exact absurd h (by omega)
  | succ k ih =>
    obtain ⟨ih1, ih2, ih3, ih4, ih5, ih6, ih7, ih8, ih9, ih10, ih11⟩ := ih
    rw [List.range_succ, List.map_append, List.map_singleton,
      dvs_run_append_singleton]
    have hstep := dvs_tick_processed
      (dvs_run s ((List.range k).map (steady_tick pr p P tin lin)))
      (steady_tick pr p P tin lin k)
      (by simp [steady_tick, ih2]) (by simp [steady_tick, ih3])
      (by simp [steady_tick, ih4])
      ih1 (by norm_num [steady_tick]) (by norm_num [steady_tick])
    have hposk : (steady_tick pr p P tin lin k).position_ms = P + 10 * (k : ℤ) := rfl
    have hpq : position_quality
        (dvs_run s ((List.range k).map (steady_tick pr p P tin lin))).quality_last_position
        (steady_tick pr p P tin lin k).position_ms = 100 := by
      rcases Nat.eq_zero_or_pos k with hk0 | hk1
      · subst hk0
        rw [ih9, if_pos rfl, hposk]
        exact position_quality_no_prior_locked _ (by omega)
      · rw [ih9, if_neg (by omega), hposk]
        apply position_quality_moving
        · rw [show P + 10 * (k : ℤ) - (P + 10 * ((k : ℤ) - 1)) = 10 by ring]
          norm_num
        · omega
    have hpiq : pitch_quality
        (dvs_run s ((List.range k).map (steady_tick pr p P tin lin))).quality_ring_filled
        (dvs_run s ((List.range k).map (steady_tick pr p P tin lin))).quality_last_pitch
        (steady_tick pr p P tin lin k).pitch = 0 := by
      rcases Nat.eq_zero_or_pos k with hk0 | hk1
      · rw [ih7, hk0]
        exact pitch_quality_unfilled _ _
      · rw [ih10 hk1]
        unfold pitch_quality
        have : (steady_tick pr p P tin lin k).pitch = p := rfl
        rw [this]
        simp
    have hentry : position_quality
          (dvs_run s ((List.range k).map (steady_tick pr p P tin lin))).quality_last_position
          (steady_tick pr p P tin lin k).position_ms +
        pitch_quality
          (dvs_run s ((List.range k).map (steady_tick pr p P tin lin))).quality_ring_filled
          (dvs_run s ((List.range k).map (steady_tick pr p P tin lin))).quality_last_pitch
          (steady_tick pr p P tin lin k).pitch = 100 := by
      rw [hpq, hpiq]
      norm_num
    have hfill' : (if
          (dvs_run s ((List.range k).map (steady_tick pr p P tin lin))).quality_ring_filled
            < QUALITY_RING_SIZE then
          (dvs_run s ((List.range k).map (steady_tick pr p P tin lin))).quality_ring_filled + 1
        else
          (dvs_run s
              ((List.range k).map (steady_tick pr p P tin lin))).quality_ring_filled)
        = min (k + 1) 32 := by
      rw [ih7]
      unfold QUALITY_RING_SIZE
      split_ifs with hlt <;> omega
    have htake : ((dvs_run s ((List.range k).map (steady_tick pr p P tin lin))).quality_ring.set
          (dvs_run s ((List.range k).map (steady_tick pr p P tin lin))).quality_ring_index
          100).take (min (k + 1) 32) = List.replicate (min (k + 1) 32) 100 := by
      rcases lt_or_le k 32 with hk32 | hk32
      · have hmin : min k 32 = k := by omega
        have hmin' : min (k + 1) 32 = k + 1 := by omega
        rw [ih6, Nat.mod_eq_of_lt hk32, hmin']
        rw [list_take_set_succ _ k 100 (by rw [ih5]; unfold QUALITY_RING_SIZE; omega)]
        rw [hmin] at ih8
        rw [ih8, ← List.replicate_succ']
      · have hmin : min k 32 = 32 := by omega
        have hmin' : min (k + 1) 32 = 32 := by omega
        have hringfull :
            (dvs_run s ((List.range k).map (steady_tick pr p P tin lin))).quality_ring
              = List.replicate 32 100 := by
          have := ih8
          rw [hmin] at this
          rw [← this]
          exact (List.take_of_length_le (by rw [ih5]; rfl)).symm
        rw [hmin', hringfull, list_set_replicate]
        exact List.take_of_length_le (by simp)
    refine ⟨?_, ?_, ?_, ?_, ?_, ?_, ?_, ?_, ?_, ?_, ?_⟩
    · rw [hstep]; exact ih1
    · rw [hstep]; exact ih2
    · rw [hstep]; exact ih3
    · rw [hstep]; exact ih4
    · rw [hstep]; simpa using ih5
    · rw [hstep]
      show ((dvs_run s ((List.range k).map (steady_tick pr p P tin lin))).quality_ring_index
          + 1) % QUALITY_RING_SIZE = (k + 1) % 32
      rw [ih6]
      unfold QUALITY_RING_SIZE
      omega
    · rw [hstep]
      show (if _ < QUALITY_RING_SIZE then _ + 1 else _) = min (k + 1) 32
      exact hfill'
    · rw [hstep]
      show (_ : List ℤ).take (min (k + 1) 32) = List.replicate (min (k + 1) 32) 100
      rw [hentry]
      exact htake
    · rw [hstep]
      show (steady_tick pr p P tin lin k).position_ms
          = if k + 1 = 0 then -1 else P + 10 * ((k : ℤ) + 1 - 1)
      rw [hposk, if_neg (by omega)]
      ring_nf
    · intro _
      rw [hstep]
      rfl
    · intro _
      rw [hstep]
      show min 1 (max 0 _) = 1/2
      rw [hentry, hfill', htake]
      have hsum : ((List.replicate (min (k + 1) 32) (100 : ℤ)).sum : ℚ)
          = 100 * ((min (k + 1) 32 : ℕ) : ℚ) := by
        rw [List.sum_replicate, nsmul_eq_mul]
        push_cast
        ring
      rw [hsum]
      push_cast
      have hm0 : (0 : ℚ) < ((k : ℚ) + 1) ⊓ 32 := lt_min (by positivity) (by norm_num)
      rw [show (100 : ℚ) * (((k : ℚ) + 1) ⊓ 32) / (2 * 100 * (((k : ℚ) + 1) ⊓ 32))
            = 1/2 from by
          rw [div_eq_iff (mul_ne_zero (by norm_num) (ne_of_gt hm0))]
          ring]
      rw [max_eq_right (by norm_num : (0 : ℚ) ≤ 1/2)]
      rw [min_eq_right (by norm_num : (1/2 : ℚ) ≤ 1)]

/-- C4: for every input sequence the DVS quality output lies in [0, 1] and the
quality ring buffer never holds more than its 32 slots; and in the steady
scenario — constant pitch (so the pitch-quality contribution is always 0) and
a constant 10 ms per-tick position advance — the quality output is exactly 1/2
once at least 32 such ticks have run, i.e. once the ring buffer has filled. -/
theorem C4_quality_invariants_and_convergence :
    (∀ (rate : ℤ) (ts : List DVSTick),
      DVSInv (dvs_run (dvs_prepare DVSState.init rate) ts)) ∧
    (∀ (s : DVSState) (pr : DVSParams) (p : ℚ) (P : ℤ) (tin lin : ℚ) (n : ℕ),
      s.initialized = true → s.quality_ring.length = QUALITY_RING_SIZE →
      s.quality_ring_index = 0 → s.quality_ring_filled = 0 →
      s.quality_last_position = -1 →
      s.last_vinyl_type = pr.vinyl_type → s.last_speed = pr.speed →
      s.last_pitch_filter = pr.pitch_filter → 0 ≤ P → 32 ≤ n →
      (dvs_run s ((List.range n).map (steady_tick pr p P tin lin))).outputs.quality
        = 1/2) := by
  constructor
  · intro rate ts
    refine dvs_run_inv _ ts ⟨?_, ?_, ?_, ?_⟩
    · show (0 : ℕ) ≤ QUALITY_RING_SIZE
      norm_num [QUALITY_RING_SIZE]
    · show (List.replicate QUALITY_RING_SIZE (0 : ℤ)).length = QUALITY_RING_SIZE
      simp
    · exact le_refl 0
    · exact zero_le_one
  · intro s pr p P tin lin n hinit hlen hidx hfill hlast hv hs hf hP hn
    exact (steady_run_state pr p P tin lin s hinit hlen hidx hfill hlast hv hs hf
      hP n).2.2.2.2.2.2.2.2.2.2 (by omega)

/-- Witness for C4: the invariant after preparing at 48 kHz (empty run), and
the exact 1/2 quality after 32 steady ticks (position advancing from 0 by
10 ms per tick, constant pitch 1) on a freshly reinitialized engine. -/
theorem C4_quality_invariants_and_convergence_witness :
    DVSInv (dvs_run (dvs_prepare DVSState.init 48000) []) ∧
    (dvs_run sDVSFresh
        ((List.range 32).map (steady_tick prW 1 0 0 0))).outputs.quality = 1/2 :=
  ⟨C4_quality_invariants_and_convergence.1 48000 [],
   C4_quality_invariants_and_convergence.2 sDVSFresh prW 1 0 0 0 32 (by decide)
     (by decide) (by decide) (by decide) (by decide) (by decide) (by decide)
     (by decide) (by decide) (by decide)⟩

end LTCAddon
